import Mathlib

/-!
Shallow embedding of `src/changed_filter.py` (a quick-panel filter for
version-control changed files) and verification of its specification.

Raw status lines are modelled as `List Char` (one list per line of the
status output); parsed paths become `String`s so that the alphabetical
ordering used by the source's `list.sort()` is the lexicographic order on
strings (Python and Lean both compare strings lexicographically by code
point).  Subprocess outcomes are an explicit `ProcResult` datatype: a
`subprocess.run(..., check=True)` call either returns stdout, raises
`CalledProcessError`, or raises `FileNotFoundError`.  Python operations
that can raise `IndexError` are modelled with `Option`.
-/

namespace ChangedFilter

/-- Python's `str.strip()` on a list of characters: drop whitespace from
both ends (source line 82 `result.stdout.strip()`, line 92
`line[3:].strip()`, line 49 `result.stdout.strip()`). -/
def pyStrip (l : List Char) : List Char :=
  ((l.dropWhile Char.isWhitespace).reverse.dropWhile Char.isWhitespace).reverse

/-- Python's `l[i]` indexing with negative-index wraparound; `none` models
an `IndexError`. -/
def pyGet (l : List α) (i : Int) : Option α :=
  let j : Int := if i < 0 then (l.length : Int) + i else i
  if 0 ≤ j then l.get? j.toNat else none

/-- One parsed status record (source lines 91-98): the path with quotes
stripped, plus the two characters of the status field `line[:2]`
(`first_char = status[0]`, `second_char = status[1]`; the full status
string is exactly `[indexStatus, worktreeStatus]`). -/
structure ChangeRecord where
  path : String
  indexStatus : Char
  worktreeStatus : Char
deriving DecidableEq, Repr

/-- The three per-session lists built by `_get_changed_files`
(source lines 20-22, 98-110): `all_files` keeps whole records (the source
stores `(file_path, status)` tuples), the other two keep paths only. -/
structure GitFiles where
  all_files : List ChangeRecord
  staged_files : List String
  unstaged_files : List String
deriving DecidableEq, Repr

/-- Parsing of one raw status line (source lines 87-98): a line shorter
than 3 characters is skipped (`continue`); otherwise `status = line[:2]`,
`file_path = line[3:].strip()`, and a surrounding pair of double quotes is
removed (`file_path[1:-1]` when it both starts and ends with `"`). -/
def parseLine (line : List Char) : Option ChangeRecord :=
  match line with
  | c1 :: c2 :: _ :: rest =>
      let fp0 := pyStrip rest
      let fp := if fp0.head? = some '"' ∧ fp0.getLast? = some '"'
                then (fp0.drop 1).dropLast else fp0
      some ⟨⟨fp⟩, c1, c2⟩
  | _ => none

/-- One iteration of the parsing loop (source lines 87-110): a parsed
record is appended to `all_files`; its path is appended to
`staged_files` when `first_char not in (' ', '?')` (line 105) and to
`unstaged_files` when `second_char != ' ' or status == '??'` (line 109). -/
def classifyStep (g : GitFiles) (line : List Char) : GitFiles :=
  match parseLine line with
  | none => g
  | some r =>
      { all_files := g.all_files ++ [r]
        staged_files := g.staged_files ++
          (if r.indexStatus != ' ' && r.indexStatus != '?' then [r.path] else [])
        unstaged_files := g.unstaged_files ++
          (if r.worktreeStatus != ' ' || (r.indexStatus == '?' && r.worktreeStatus == '?')
           then [r.path] else []) }

/-- The whole classification of a list of raw lines (source lines 87-115):
the parsing loop followed by the three sorts — `all_files` is sorted by
path (`key=lambda x: x[0]`), the path lists alphabetically. -/
def getChangedFilesFrom (lines : List (List Char)) : GitFiles :=
  let g := lines.foldl classifyStep ⟨[], [], []⟩
  { all_files := List.insertionSort (fun a b => a.path ≤ b.path) g.all_files
    staged_files := List.insertionSort (· ≤ ·) g.staged_files
    unstaged_files := List.insertionSort (· ≤ ·) g.unstaged_files }

/-- Outcome of a `subprocess.run([...], check=True)` call: captured
stdout on success, `CalledProcessError` (non-zero exit, carrying its
message text) or `FileNotFoundError` (executable missing). -/
inductive ProcResult
  | ok (stdout : List Char)
  | calledProcessError (e : String)
  | fileNotFoundError
deriving DecidableEq, Repr

/-- `_check_git_repo` (source lines 38-54): on success the stripped stdout
becomes `git_root` and the method returns `True`; both exception kinds are
caught and yield `False` (modelled as `none`). -/
def checkGitRepo : ProcResult → Option String
  | .ok out => some ⟨pyStrip out⟩
  | .calledProcessError _ => none
  | .fileNotFoundError => none

/-- The three filter kinds of `filter_types = ['all', 'staged', 'unstaged']`
(source line 151). -/
inductive FilterKind
  | all
  | staged
  | unstaged
deriving DecidableEq, Repr

/-- Control state of one selection session: which quick panel (if any) is
awaiting a callback.  `done` means the session has ended. -/
inductive SessionState
  | filterSelect
  | fileSelect (filter : FilterKind)
  | done
deriving DecidableEq, Repr

/-- Observable calls into the UI shell: the filter quick panel with its
three live counts, the file quick panel with its item list, an error
notice (`_show_error`), and `window.open_file`. -/
inductive Effect
  | showFilterMenu (allCount stagedCount unstagedCount : Nat)
  | showFileMenu (files : List String)
  | notice (msg : String)
  | openFile (path : String)
deriving DecidableEq, Repr

/-- The seen-set deduplication idiom of source lines 163-164 and 195-196
(`[f for f in files if not (f in seen or seen.add(f))]`): keep the first
occurrence of each path. -/
def dedupFirst : List String → List String → List String
  | _, [] => []
  | seen, f :: rest =>
      if f ∈ seen then dedupFirst seen rest
      else f :: dedupFirst (f :: seen) rest

/-- Python's `len(set(l))` (source line 129): the number of distinct
elements. -/
def pySetSize (l : List String) : Nat := (dedupFirst [] l).length

/-- `_show_filter_selection` (source lines 126-143): show the filter menu
with live counts (unique paths of `all_files`, lengths of the two path
lists) and await a choice in state `filterSelect`. -/
def showFilterSelection (g : GitFiles) : SessionState × List Effect :=
  (.filterSelect,
   [.showFilterMenu (pySetSize (g.all_files.map (·.path)))
      g.staged_files.length g.unstaged_files.length])

/-- The `filter_name.lower()` values used in the empty-list error message
(source lines 165, 168, 171, 174). -/
def filterNameLower : FilterKind → String
  | .all => "all changes"
  | .staged => "staged only"
  | .unstaged => "unstaged only"

/-- The file list computed by `_show_file_list` (source lines 159-171):
for `all`, the paths of `all_files` deduplicated keeping first
occurrences; for the other two, the corresponding path list as is. -/
def showFileListFiles (g : GitFiles) : FilterKind → List String
  | .all => dedupFirst [] (g.all_files.map (·.path))
  | .staged => g.staged_files
  | .unstaged => g.unstaged_files

/-- `_show_file_list` (source lines 157-182): an empty list shows the
"No ..." notice and ends the session; otherwise the file quick panel is
shown and the session awaits a choice in state `fileSelect`. -/
def showFileList (g : GitFiles) (f : FilterKind) : SessionState × List Effect :=
  let files := showFileListFiles g f
  if files = [] then (.done, [.notice ("No " ++ filterNameLower f)])
  else (.fileSelect f, [.showFileMenu files])

/-- Source line 151. -/
def filterTypes : List FilterKind := [.all, .staged, .unstaged]

/-- `_on_filter_selected` (source lines 145-155): index `-1` (cancel)
just returns, ending the session with no effect; otherwise
`filter_types[index]` selects the filter and `_show_file_list` runs.
`none` models the `IndexError` a Python index outside the list would
raise. -/
def onFilterSelected (g : GitFiles) (index : Int) :
    Option (SessionState × List Effect) :=
  if index = -1 then some (.done, [])
  else (pyGet filterTypes index).map (fun f => showFileList g f)

/-- The file list recomputed by `_on_file_selected` (source lines
192-200); the source duplicates the computation of `_show_file_list`
verbatim. -/
def onFileSelectedFiles (g : GitFiles) : FilterKind → List String
  | .all => dedupFirst [] (g.all_files.map (·.path))
  | .staged => g.staged_files
  | .unstaged => g.unstaged_files

/-- Python's `os.path.join(a, b)` for POSIX paths (source line 203):
`b` absolute wins; otherwise concatenate, inserting `/` unless `a` is
empty or already ends with one. -/
def osPathJoin (a b : String) : String :=
  if b.data.head? = some '/' then b
  else if a.data = [] ∨ a.data.getLast? = some '/' then a ++ b
  else a ++ "/" ++ b

/-- The per-session data `_on_file_selected` reads: the resolved
`git_root` and the classified file lists. -/
structure Session where
  git_root : String
  files : GitFiles
deriving DecidableEq, Repr

/-- `_on_file_selected` (source lines 184-206): index `-1` (ESC) goes
back to `_show_filter_selection`; otherwise the chosen path is
`files[index]` of the recomputed list, joined onto `git_root` and opened,
ending the session.  `none` models the `IndexError` of an out-of-range
index. -/
def onFileSelected (s : Session) (f : FilterKind) (index : Int) :
    Option (SessionState × List Effect) :=
  if index = -1 then some (showFilterSelection s.files)
  else
    (pyGet (onFileSelectedFiles s.files f) index).map fun fp =>
      (.done, [.openFile (osPathJoin s.git_root fp)])

/-- Outcome of `_get_changed_files` (source lines 71-124), separating the
four exits: parsed files with `True`; `False` with no notice (empty
output, or no record survived parsing); `False` after the
"Error running git" notice; `False` after the "Git not found" notice. -/
inductive GetChangedOutcome
  | success (g : GitFiles)
  | noChanges
  | gitError (e : String)
  | gitNotFound
deriving DecidableEq, Repr

/-- `_get_changed_files` on the result of the status subprocess (source
lines 71-124): strip stdout, treat empty output as `False`, otherwise
split on newlines, run the parsing loop and the sorts, and return
`len(all_files) > 0`. -/
def getChangedFiles (statusResult : ProcResult) : GetChangedOutcome :=
  match statusResult with
  | .calledProcessError e => .gitError e
  | .fileNotFoundError => .gitNotFound
  | .ok stdout =>
      let output := pyStrip stdout
      if output = [] then .noChanges
      else
        let g := getChangedFilesFrom (output.splitOn '\n')
        if g.all_files.length > 0 then .success g else .noChanges

/-- `run` (source lines 16-36) as a function of the two subprocess
outcomes: a failed root resolution shows "Not in a git repository"; a
`False` from `_get_changed_files` shows "No changed files" (after any
notice `_get_changed_files` itself showed); success shows the filter
menu.  Returns the resulting session state and the emitted effects. -/
def run (revParse statusQuery : ProcResult) : SessionState × List Effect :=
  match checkGitRepo revParse with
  | none => (.done, [.notice "Not in a git repository"])
  | some _ =>
      match getChangedFiles statusQuery with
      | .gitError e =>
          (.done, [.notice ("Error running git: " ++ e), .notice "No changed files"])
      | .gitNotFound =>
          (.done, [.notice "Git not found in PATH", .notice "No changed files"])
      | .noChanges => (.done, [.notice "No changed files"])
      | .success g => showFilterSelection g

/-- Does an effect show a selection menu (either quick panel with a
callback, as opposed to a notice or a file open)? -/
def isMenuEffect : Effect → Bool
  | .showFilterMenu _ _ _ => true
  | .showFileMenu _ => true
  | .notice _ => false
  | .openFile _ => false

/-! ### Helper lemmas -/

theorem dedupFirst_sublist : ∀ (seen l : List String), List.Sublist (dedupFirst seen l) l
  | _, [] => List.Sublist.refl _
  | seen, f :: rest => by
      unfold dedupFirst
      by_cases h : f ∈ seen
      · simpa [h] using (dedupFirst_sublist seen rest).cons f
      · simpa [h] using (dedupFirst_sublist (f :: seen) rest).cons₂ f

theorem mem_dedupFirst : ∀ (seen l : List String) (x : String),
    x ∈ dedupFirst seen l ↔ x ∈ l ∧ x ∉ seen
  | seen, [], x => by simp [dedupFirst]
  | seen, f :: rest, x => by
      unfold dedupFirst
      by_cases h : f ∈ seen
      · rw [if_pos h, mem_dedupFirst seen rest x]
        constructor
        · exact fun ⟨h1, h2⟩ => ⟨List.mem_cons_of_mem f h1, h2⟩
        · rintro ⟨h1, h2⟩
          rcases List.mem_cons.1 h1 with rfl | h1
          · exact absurd h h2
          · exact ⟨h1, h2⟩
      · rw [if_neg h]
        simp only [List.mem_cons, mem_dedupFirst (f :: seen) rest x]
        constructor
        · rintro (rfl | ⟨h1, h2⟩)
          · exact ⟨Or.inl rfl, h⟩
          · exact ⟨Or.inr h1, fun hx => h2 (Or.inr hx)⟩
        · rintro ⟨rfl | h1, h2⟩
          · exact Or.inl rfl
          · by_cases hf : x = f
            · exact Or.inl hf
            · exact Or.inr ⟨h1, by simp [hf, h2]⟩

theorem dedupFirst_nodup : ∀ (seen l : List String), (dedupFirst seen l).Nodup
  | seen, [] => List.nodup_nil
  | seen, f :: rest => by
      unfold dedupFirst
      by_cases h : f ∈ seen
      · simpa [h] using dedupFirst_nodup seen rest
      · rw [if_neg h]
        refine List.nodup_cons.2 ⟨fun hf => ?_, dedupFirst_nodup (f :: seen) rest⟩
        exact ((mem_dedupFirst (f :: seen) rest f).1 hf).2 (List.mem_cons_self f seen)

theorem foldl_classifyStep_all (lines : List (List Char)) (g : GitFiles) :
    (lines.foldl classifyStep g).all_files
      = g.all_files ++ lines.filterMap parseLine := by
  induction lines generalizing g with
  | nil => simp
  | cons l ls ih =>
      rw [List.foldl_cons, ih, List.filterMap_cons]
      cases hp : parseLine l with
      | none => simp [classifyStep, hp]
      | some r => simp [classifyStep, hp]

theorem foldl_classifyStep_staged (lines : List (List Char)) (g : GitFiles) :
    (lines.foldl classifyStep g).staged_files
      = g.staged_files ++
          (((lines.filterMap parseLine).filter
              (fun r => r.indexStatus != ' ' && r.indexStatus != '?')).map (·.path)) := by
  induction lines generalizing g with
  | nil => simp
  | cons l ls ih =>
      rw [List.foldl_cons, ih, List.filterMap_cons]
      cases hp : parseLine l with
      | none => simp [classifyStep, hp]
      | some r =>
          rw [List.filter_cons]
          by_cases hc : (r.indexStatus != ' ' && r.indexStatus != '?') = true
          · simp [classifyStep, hp, hc]
          · simp [classifyStep, hp, hc]

theorem foldl_classifyStep_unstaged (lines : List (List Char)) (g : GitFiles) :
    (lines.foldl classifyStep g).unstaged_files
      = g.unstaged_files ++
          (((lines.filterMap parseLine).filter
              (fun r => r.worktreeStatus != ' '
                || (r.indexStatus == '?' && r.worktreeStatus == '?'))).map (·.path)) := by
  induction lines generalizing g with
  | nil => simp
  | cons l ls ih =>
      rw [List.foldl_cons, ih, List.filterMap_cons]
      cases hp : parseLine l with
      | none => simp [classifyStep, hp]
      | some r =>
          rw [List.filter_cons]
          by_cases hc : (r.worktreeStatus != ' '
              || (r.indexStatus == '?' && r.worktreeStatus == '?')) = true
          · simp [classifyStep, hp, hc]
          · simp [classifyStep, hp, hc]

instance : IsTotal ChangeRecord (fun a b => a.path ≤ b.path) :=
  ⟨fun a b => le_total a.path b.path⟩

instance : IsTrans ChangeRecord (fun a b => a.path ≤ b.path) :=
  ⟨fun _ _ _ h1 h2 => le_trans h1 h2⟩

theorem sorted_paths_of_sorted_records (x : List ChangeRecord) :
    List.Sorted (· ≤ ·)
      ((List.insertionSort (fun a b => a.path ≤ b.path) x).map (·.path)) := by
  have h : List.Sorted (fun a b : ChangeRecord => a.path ≤ b.path)
      (List.insertionSort (fun a b => a.path ≤ b.path) x) :=
    List.sorted_insertionSort _ x
  exact List.pairwise_map.mpr h

theorem sorted_dedupFirst (seen : List String) {l : List String}
    (h : List.Sorted (· ≤ ·) l) : List.Sorted (· ≤ ·) (dedupFirst seen l) :=
  List.Pairwise.sublist (dedupFirst_sublist seen l) h

/-! ### Claim theorems -/

/-- C1: a parsed record's path is appended to the staged list if and only
if its index-status character (the first character of the status field)
is neither space nor the untracked marker `?`: the staged list of the
classification is exactly the alphabetical sort of the paths of exactly
those parsed records passing that test. -/
theorem C1_staged_iff_index_status (lines : List (List Char)) :
    (getChangedFilesFrom lines).staged_files
      = List.insertionSort (· ≤ ·)
          (((lines.filterMap parseLine).filter
              (fun r => r.indexStatus != ' ' && r.indexStatus != '?')).map (·.path)) := by
  unfold getChangedFilesFrom
  dsimp only
  rw [foldl_classifyStep_staged]
  simp

/-- C2: a parsed record's path is appended to the unstaged list if and
only if its worktree-status character (the second character of the status
field) is not a space, or the full two-character status code is `??`
(both characters are the untracked marker): the unstaged list of the
classification is exactly the alphabetical sort of the paths of exactly
those parsed records passing that test. -/
theorem C2_unstaged_iff_worktree_status (lines : List (List Char)) :
    (getChangedFilesFrom lines).unstaged_files
      = List.insertionSort (· ≤ ·)
          (((lines.filterMap parseLine).filter
              (fun r => r.worktreeStatus != ' '
                || (r.indexStatus == '?' && r.worktreeStatus == '?'))).map (·.path)) := by
  unfold getChangedFilesFrom
  dsimp only
  rw [foldl_classifyStep_unstaged]
  simp

/-- C4: a raw status line shorter than 3 characters is discarded — it
parses to no record, and one loop iteration on it leaves all three lists
unchanged. -/
theorem C4_short_lines_discarded (line : List Char) (h : line.length < 3)
    (g : GitFiles) : parseLine line = none ∧ classifyStep g line = g := by
  have hp : parseLine line = none := by
    match line with
    | [] => rfl
    | [_] => rfl
    | [_, _] => rfl
    | _ :: _ :: _ :: _ => simp at h; omega
  exact ⟨hp, by simp [classifyStep, hp]⟩

/-- C4 witness: the two-character line `"M "` is discarded. -/
theorem C4_short_lines_discarded_witness :
    ([' ', 'M'] : List Char).length < 3 ∧
    (parseLine [' ', 'M'] = none ∧ classifyStep ⟨[], [], []⟩ [' ', 'M'] = ⟨[], [], []⟩) :=
  ⟨by decide, C4_short_lines_discarded [' ', 'M'] (by decide) ⟨[], [], []⟩⟩

/-- C5: cancellation (index `-1`) in the `fileSelect` state moves the
session back to `filterSelect` and re-shows the filter menu, while
cancellation in the `filterSelect` state ends the session with no effect
at all (no notice, no file opened). -/
theorem C5_cancel_asymmetry (s : Session) (f : FilterKind) (g : GitFiles) :
    onFileSelected s f (-1)
      = some (.filterSelect,
          [.showFilterMenu (pySetSize (s.files.all_files.map (·.path)))
             s.files.staged_files.length s.files.unstaged_files.length]) ∧
    onFilterSelected g (-1) = some (.done, []) := by
  constructor
  · simp [onFileSelected, showFilterSelection]
  · simp [onFilterSelected]

/-- C6 counterexample: when repository-root resolution fails because the
version-control tool is missing (`FileNotFoundError`), the session shows
exactly the same "Not in a git repository" notice as when the directory
is simply not a repository (`CalledProcessError`), so the diagnostic does
not distinguish the two cases. -/
theorem C6_message_not_distinguished :
    run (.calledProcessError "exit status 128") (.ok ['x']) =
      run .fileNotFoundError (.ok ['x']) ∧
    run .fileNotFoundError (.ok ['x'])
      = (.done, [.notice "Not in a git repository"]) := by
  exact ⟨rfl, rfl⟩

/-- C6 amended: when repository-root resolution fails, the collector
reports failure through a notice without raising, but both failure
causes — not a repository and tool missing — produce the identical
"Not in a git repository" notice; no distinction is made at this step. -/
theorem C6_root_failure_single_notice (e : String) (sq : ProcResult) :
    run (.calledProcessError e) sq = (.done, [.notice "Not in a git repository"]) ∧
    run .fileNotFoundError sq = (.done, [.notice "Not in a git repository"]) :=
  ⟨rfl, rfl⟩

/-- C7: when the status query succeeds with output that strips to empty,
the session ends with exactly the "No changed files" notice, no selection
menu is shown, and the resulting trace differs from the trace of either
tool-error outcome. -/
theorem C7_empty_output_no_changes (rp out : List Char) (e : String)
    (h : pyStrip out = []) :
    run (.ok rp) (.ok out) = (.done, [.notice "No changed files"]) ∧
    ((run (.ok rp) (.ok out)).2.all fun ef => !isMenuEffect ef) = true ∧
    run (.ok rp) (.calledProcessError e) ≠ run (.ok rp) (.ok out) ∧
    run (.ok rp) .fileNotFoundError ≠ run (.ok rp) (.ok out) := by
  have h1 : run (.ok rp) (.ok out) = (.done, [.notice "No changed files"]) := by
    simp [run, checkGitRepo, getChangedFiles, h]
  refine ⟨h1, by rw [h1]; rfl, ?_, ?_⟩
  · rw [h1]; simp [run, checkGitRepo, getChangedFiles]
  · rw [h1]; simp [run, checkGitRepo, getChangedFiles]

/-- C7 witness: an entirely blank status output. -/
theorem C7_empty_output_no_changes_witness :
    pyStrip [' ', '\n'] = [] ∧
    (run (.ok ['/']) (.ok [' ', '\n']) = (.done, [.notice "No changed files"]) ∧
     ((run (.ok ['/']) (.ok [' ', '\n'])).2.all fun ef => !isMenuEffect ef) = true ∧
     run (.ok ['/']) (.calledProcessError "exit status 128")
       ≠ run (.ok ['/']) (.ok [' ', '\n']) ∧
     run (.ok ['/']) .fileNotFoundError ≠ run (.ok ['/']) (.ok [' ', '\n'])) :=
  ⟨by decide, C7_empty_output_no_changes ['/'] [' ', '\n'] "exit status 128" (by decide)⟩

/-- C8: choosing a valid (non-negative, in-range) index in the
`fileSelect` state resolves it through the recomputed list, joins the
repository root with the repository-relative path, emits exactly one
`openFile` effect with that joined path, and ends the session. -/
theorem C8_open_joined_path_once (s : Session) (f : FilterKind) (i : Int)
    (fp : String) (h0 : 0 ≤ i)
    (h : pyGet (onFileSelectedFiles s.files f) i = some fp) :
    onFileSelected s f i
      = some (.done, [.openFile (osPathJoin s.git_root fp)]) := by
  have hne : i ≠ -1 := by omega
  simp [onFileSelected, hne, h]

/-- C8 witness: the session of the single unstaged file `b.txt` in
`/repo`; choosing index 0 opens `/repo/b.txt` and ends the session. -/
theorem C8_open_joined_path_once_witness :
    (0 : Int) ≤ 0 ∧
    pyGet (onFileSelectedFiles
        (getChangedFilesFrom [[' ', 'M', ' ', 'b', '.', 't', 'x', 't']]) .unstaged) 0
      = some "b.txt" ∧
    onFileSelected
        ⟨"/repo", getChangedFilesFrom [[' ', 'M', ' ', 'b', '.', 't', 'x', 't']]⟩
        .unstaged 0
      = some (.done, [.openFile (osPathJoin "/repo" "b.txt")]) :=
  ⟨le_refl 0, by decide,
   C8_open_joined_path_once
     ⟨"/repo", getChangedFilesFrom [[' ', 'M', ' ', 'b', '.', 't', 'x', 't']]⟩
     .unstaged 0 "b.txt" (le_refl 0) (by decide)⟩

/-- C9: a raw line of exactly 3 characters is not discarded: it parses to
a record whose path is the empty string, the record joins `all_files`
like any other, and (for instance) an `A`-status such line puts the empty
path in the staged list and a `??`-status one puts it in the unstaged
list. -/
theorem C9_length_three_empty_path (c1 c2 c3 : Char) (g : GitFiles) :
    parseLine [c1, c2, c3] = some ⟨"", c1, c2⟩ ∧
    (classifyStep g [c1, c2, c3]).all_files = g.all_files ++ [⟨"", c1, c2⟩] ∧
    (classifyStep g ['A', ' ', ' ']).staged_files = g.staged_files ++ [""] ∧
    (classifyStep g ['?', '?', ' ']).unstaged_files = g.unstaged_files ++ [""] := by
  refine ⟨rfl, ?_, rfl, rfl⟩
  simp [classifyStep, parseLine, pyStrip]

/-- C10: the file list recomputed in `_on_file_selected` is element for
element the list `_show_file_list` displayed (for every filter kind,
including the deduplication pass of the `all` filter), so any index
resolves to exactly the file shown at that index. -/
theorem C10_recomputed_list_matches_display (g : GitFiles) (f : FilterKind) :
    showFileListFiles g f = onFileSelectedFiles g f ∧
    ∀ i : Int, pyGet (onFileSelectedFiles g f) i = pyGet (showFileListFiles g f) i := by
  have h : showFileListFiles g f = onFileSelectedFiles g f := by cases f <;> rfl
  exact ⟨h, fun i => by rw [h]⟩

/-- C3: after classification, all three presented lists are sorted
alphabetically; the presented `all` list is deduplicated (no duplicate
paths, one entry per unique path of `all_files`), while the staged and
unstaged lists are presented exactly as classified, each retaining its
own copy of a path that is both staged and unstaged. -/
theorem C3_sorted_and_dedup (lines : List (List Char)) :
    List.Sorted (· ≤ ·) (showFileListFiles (getChangedFilesFrom lines) .all) ∧
    (showFileListFiles (getChangedFilesFrom lines) .all).Nodup ∧
    (∀ p, p ∈ showFileListFiles (getChangedFilesFrom lines) .all ↔
        p ∈ (getChangedFilesFrom lines).all_files.map (·.path)) ∧
    List.Sorted (· ≤ ·) (showFileListFiles (getChangedFilesFrom lines) .staged) ∧
    List.Sorted (· ≤ ·) (showFileListFiles (getChangedFilesFrom lines) .unstaged) ∧
    showFileListFiles (getChangedFilesFrom lines) .staged
      = (getChangedFilesFrom lines).staged_files ∧
    showFileListFiles (getChangedFilesFrom lines) .unstaged
      = (getChangedFilesFrom lines).unstaged_files := by
  refine ⟨?_, dedupFirst_nodup [] _, fun p => ?_,
    List.sorted_insertionSort (· ≤ ·) _, List.sorted_insertionSort (· ≤ ·) _,
    rfl, rfl⟩
  · exact sorted_dedupFirst []
      (sorted_paths_of_sorted_records
        ((lines.foldl classifyStep ⟨[], [], []⟩).all_files))
  · rw [show showFileListFiles (getChangedFilesFrom lines) .all
        = dedupFirst [] ((getChangedFilesFrom lines).all_files.map (·.path)) from rfl,
      mem_dedupFirst]
    simp

end ChangedFilter
